import Mathlib

/-!
Verification development for the sandboxed statement interpreter and
execution-trace recorder of `src/main.py` (the `/api/execute` handler,
function `execute_code`, lines 2207-2271).

The handler runs untrusted program text with CPython `exec` under a
restricted `__builtins__` mapping, captures stdout into a buffer, and shapes
an `ExecResult` with fields `success`, `output`, `error`, `variables`,
`steps`.  We embed the straight-line fragment of the language the block
palette generates (integer and string literals, identifiers, calls) together
with the exact result-shaping code of `execute_code`:

  * `splitLines`      embeds Python `code.split(chr 10)`;
  * `pyStrip`         embeds Python `str.strip()` (all leading and trailing
                      whitespace removed);
  * `stepsAux`        embeds the `for i, line in enumerate(lines)` loop that
                      appends `(i+1, line)` for every non-blank line not
                      beginning with a hash;
  * `lookupBuiltin`   embeds the restricted `__builtins__` dict passed to
                      `exec` (print, input, range, len, int, float, str, abs,
                      min, max, sum, plus the True/False/None entries);
  * `evalExpr`/`execStmt`/`runProg` embed CPython evaluation of the
                      straight-line fragment: names resolve in the local
                      environment first and then in the builtins mapping, a
                      missing name raises `NameError` whose `str` is
                      `name 'x' is not defined`, calls evaluate the callee
                      and then the arguments left to right, and `print`
                      appends its space-joined, newline-terminated text to
                      the captured stream;
  * `execute_code`    embeds the result shaping: on a clean run the steps
                      scan, the `output.strip().split` post-processing and
                      the underscore-filtered `repr` snapshot of the locals
                      all run inside the `try` block, so on a fault the
                      `except` branch leaves `output`, `variables` and
                      `steps` at their initial empty values and records
                      `success=False` with the message of the exception.

Known deliberate model limits, none of which is exercised by any theorem
below: the `float` builtin reports a model-limitation fault instead of
producing an IEEE value; `repr` of strings uses the common single-quote
escaping; the CPython parser (syntax errors) and attribute access are not
modelled, so programs are supplied pre-parsed.
-/

namespace TeachCoding

/-- Characters removed by Python `str.strip()` with no argument. -/
def isPyWS (c : Char) : Bool :=
  c = ' ' || c = '\t' || c = '\n' || c = '\r' || c = '\x0b' || c = '\x0c'

/-- Python `s.strip()`: drop leading and trailing whitespace characters. -/
def pyStrip (s : String) : String :=
  String.mk (((s.toList.dropWhile isPyWS).reverse.dropWhile isPyWS).reverse)

/-- Helper for `splitLines`, accumulating the current line in reverse. -/
def splitLinesAux (acc : List Char) : List Char → List String
  | [] => [String.mk acc.reverse]
  | c :: cs =>
    if c = '\n' then String.mk acc.reverse :: splitLinesAux [] cs
    else splitLinesAux (c :: acc) cs

/-- Python `code.split(chr 10)`: the empty string yields one empty line. -/
def splitLines (s : String) : List String :=
  splitLinesAux [] s.toList

/-- Python `s.startswith(chr 35)` on an already stripped line. -/
def startsHash (s : String) : Bool :=
  match s.toList with
  | '#' :: _ => true
  | _ => false

/-- Python `name.startswith(chr 95)`: the underscore filter of the
variables snapshot. -/
def startsUnderscore (s : String) : Bool :=
  match s.toList with
  | '_' :: _ => true
  | _ => false

/-- The filter of the steps loop: `line.strip() and not
line.strip().startswith(chr 35)`. -/
def isStepLine (l : String) : Bool :=
  !(pyStrip l).toList.isEmpty && !startsHash (pyStrip l)

/-- One entry of the `steps` list: `(line := i + 1, code := line)`. -/
structure StepEntry where
  line : Nat
  code : String
  deriving DecidableEq

/-- The `for i, line in enumerate(lines)` loop of `execute_code`, with the
running 0-based index made explicit. -/
def stepsAux : Nat → List String → List StepEntry
  | _, [] => []
  | i, l :: ls =>
    if isStepLine l then ⟨i + 1, l⟩ :: stepsAux (i + 1) ls
    else stepsAux (i + 1) ls

/-- The full static steps scan of `execute_code` over `code.split(chr 10)`. -/
def computeSteps (code : String) : List StepEntry :=
  stepsAux 0 (splitLines code)

/-- Runtime values of the embedded fragment.  The restricted builtins are
first-class values (`x = abs` is legal), and `range` produces a range
object remembering start, stop and step. -/
inductive Value where
  | intV (n : Int)
  | strV (s : String)
  | boolV (b : Bool)
  | noneV
  | builtinV (f : String)
  | rangeV (start stop step : Int)
  deriving DecidableEq

/-- Escape one character the way Python `repr` quotes common characters
inside a single-quoted string. -/
def pyReprChar (c : Char) : String :=
  if c = '\\' then "\\\\"
  else if c = '\'' then "\\'"
  else if c = '\n' then "\\n"
  else if c = '\t' then "\\t"
  else if c = '\r' then "\\r"
  else String.mk [c]

/-- Python `repr` of a string (single-quoted form). -/
def pyReprStr (s : String) : String :=
  "'" ++ String.join (s.toList.map pyReprChar) ++ "'"

/-- Python `repr`, as used for the `variables` snapshot
(`result[...] = repr(value)`). -/
def pyRepr : Value → String
  | .intV n => toString n
  | .strV s => pyReprStr s
  | .boolV b => if b then "True" else "False"
  | .noneV => "None"
  | .builtinV f => "<built-in function " ++ f ++ ">"
  | .rangeV a b st =>
    if st = 1 then "range(" ++ toString a ++ ", " ++ toString b ++ ")"
    else "range(" ++ toString a ++ ", " ++ toString b ++ ", " ++ toString st ++ ")"

/-- Python `str`, as used by `print`: identical to `repr` except on
strings. -/
def pyStr : Value → String
  | .strV s => s
  | v => pyRepr v

/-- Join strings with a separator (Python `sep.join`). -/
def joinSep (sep : String) : List String → String
  | [] => ""
  | [x] => x
  | x :: xs => x ++ sep ++ joinSep sep xs

/-- Number of elements of Python `range(start, stop, step)` (step nonzero). -/
def rangeCount (start stop step : Int) : Nat :=
  if 0 < step then
    (if start < stop then ((stop - start - 1) / step + 1).toNat else 0)
  else
    (if stop < start then ((start - stop - 1) / (-step) + 1).toNat else 0)

/-- The elements of Python `range(start, stop, step)`. -/
def rangeElems (start stop step : Int) : List Int :=
  (List.range (rangeCount start stop step)).map (fun i => start + step * (i : Int))

/-- Accumulating decimal parser for `int(s)` on a digit list. -/
def parseDigits (acc : Nat) : List Char → Option Nat
  | [] => some acc
  | c :: cs =>
    if c.isDigit then parseDigits (acc * 10 + (c.toNat - '0'.toNat)) cs
    else none

/-- Python `int(s)` on strings: strip, optional sign, decimal digits. -/
def pyParseInt (s : String) : Option Int :=
  match (pyStrip s).toList with
  | [] => none
  | '-' :: rest =>
    if rest.isEmpty then none
    else (parseDigits 0 rest).map (fun n => -(n : Int))
  | '+' :: rest =>
    if rest.isEmpty then none
    else (parseDigits 0 rest).map (fun n => (n : Int))
  | l => (parseDigits 0 l).map (fun n => (n : Int))

/-- Extract an integer list when every argument is an int (for min and max). -/
def allInts : List Value → Option (List Int)
  | [] => some []
  | .intV n :: vs => (allInts vs).map (fun ns => n :: ns)
  | _ => none

/-- The restricted `__builtins__` mapping passed to `exec` in
`execute_code`: the eleven callable capabilities plus the `True`, `False`
and `None` dictionary entries.  `round` is absent. -/
def lookupBuiltin (x : String) : Option Value :=
  if x = "print" || x = "input" || x = "range" || x = "len" || x = "int" ||
     x = "float" || x = "str" || x = "abs" || x = "min" || x = "max" ||
     x = "sum" then some (.builtinV x)
  else if x = "True" then some (.boolV true)
  else if x = "False" then some (.boolV false)
  else if x = "None" then some .noneV
  else none

/-- Application of one named builtin to evaluated arguments.  The result is
the returned value paired with the text the call appends to the captured
output stream (nonempty only for `print`).  Faults carry the `str` of the
CPython exception. -/
def applyBuiltin (f : String) (args : List Value) : Except String (Value × String) :=
  if f = "print" then
    .ok (.noneV, joinSep " " (args.map pyStr) ++ "\n")
  else if f = "input" then
    -- the source binds input to `lambda x='': x`: echo the argument, or ''
    match args with
    | [] => .ok (.strV "", "")
    | [v] => .ok (v, "")
    | _ => .error "<lambda>() takes from 0 to 1 positional arguments"
  else if f = "range" then
    match args with
    | [.intV n] => .ok (.rangeV 0 n 1, "")
    | [.intV a, .intV b] => .ok (.rangeV a b 1, "")
    | [.intV a, .intV b, .intV s] =>
      if s = 0 then .error "range() arg 3 must not be zero"
      else .ok (.rangeV a b s, "")
    | _ => .error "range expected integer arguments"
  else if f = "len" then
    match args with
    | [.strV s] => .ok (.intV s.toList.length, "")
    | [.rangeV a b s] => .ok (.intV (rangeCount a b s), "")
    | [_] => .error "object has no len()"
    | _ => .error "len() takes exactly one argument"
  else if f = "int" then
    match args with
    | [] => .ok (.intV 0, "")
    | [.intV n] => .ok (.intV n, "")
    | [.boolV b] => .ok (.intV (if b then 1 else 0), "")
    | [.strV s] =>
      (match pyParseInt s with
       | some n => .ok (.intV n, "")
       | none => .error ("invalid literal for int() with base 10: " ++ pyReprStr s))
    | _ => .error "int() argument must be a string or a number"
  else if f = "float" then
    .error "float() is not modelled: binary floating point is outside this embedding"
  else if f = "str" then
    match args with
    | [] => .ok (.strV "", "")
    | [v] => .ok (.strV (pyStr v), "")
    | _ => .error "str() takes at most 1 argument"
  else if f = "abs" then
    match args with
    | [.intV n] => .ok (.intV (if n < 0 then -n else n), "")
    | [.boolV b] => .ok (.intV (if b then 1 else 0), "")
    | _ => .error "bad operand type for abs()"
  else if f = "min" then
    match allInts args with
    | some (n :: ns) =>
      if ns.isEmpty then .error "'int' object is not iterable"
      else .ok (.intV (ns.foldl (fun a b => if b < a then b else a) n), "")
    | _ => .error "min expected numeric arguments"
  else if f = "max" then
    match allInts args with
    | some (n :: ns) =>
      if ns.isEmpty then .error "'int' object is not iterable"
      else .ok (.intV (ns.foldl (fun a b => if a < b then b else a) n), "")
    | _ => .error "max expected numeric arguments"
  else if f = "sum" then
    match args with
    | [.rangeV a b s] => .ok (.intV ((rangeElems a b s).foldl (fun x y => x + y) 0), "")
    | _ => .error "sum expected an iterable of numbers"
  else
    .error ("name '" ++ f ++ "' is not defined")

/-- Calling an arbitrary value: only the builtins of the capability mapping
are callable in the embedded fragment. -/
def applyValue (f : Value) (args : List Value) : Except String (Value × String) :=
  match f with
  | .builtinV g => applyBuiltin g args
  | .intV _ => .error "'int' object is not callable"
  | .strV _ => .error "'str' object is not callable"
  | .boolV _ => .error "'bool' object is not callable"
  | .noneV => .error "'NoneType' object is not callable"
  | .rangeV _ _ _ => .error "'range' object is not callable"

/-- The per-run local environment (`local_vars` in the source): an
insertion-ordered mapping, as CPython dictionaries are. -/
abbrev Env := List (String × Value)

/-- Dictionary lookup in `local_vars`. -/
def envGet : Env → String → Option Value
  | [], _ => none
  | (y, v) :: rest, x => if y = x then some v else envGet rest x

/-- Dictionary update: assignment overwrites in place, a fresh key is
appended, preserving CPython insertion order. -/
def envSet : Env → String → Value → Env
  | [], x, v => [(x, v)]
  | (y, w) :: rest, x, v =>
    if y = x then (y, v) :: rest else (y, w) :: envSet rest x v

/-- State of one run: the local environment and the text captured so far by
the redirected stdout buffer. -/
structure RunState where
  env : Env
  out : String
  deriving DecidableEq

/-- The state a run starts from: empty `local_vars`, empty capture buffer. -/
def initState : RunState := ⟨[], ""⟩

mutual
/-- Expressions of the straight-line fragment the block palette generates. -/
inductive Expr where
  | intLit (n : Int)
  | strLit (s : String)
  | name (x : String)
  | call (f : Expr) (args : ExprList)
/-- Argument lists, as a mutual inductive so that the evaluator is plain
structural recursion. -/
inductive ExprList where
  | nil
  | cons (e : Expr) (es : ExprList)
end

/-- Statements of the straight-line fragment: assignment and expression
statements. -/
inductive Stmt where
  | assign (x : String) (e : Expr)
  | exprStmt (e : Expr)

mutual
/-- CPython evaluation of one expression under the restricted globals:
names resolve in `local_vars` first and then in the builtins mapping; a
miss raises NameError; calls evaluate the callee, then the arguments left
to right, then apply.  The state records output already written even when
the result is a fault. -/
def evalExpr (st : RunState) : Expr → RunState × Except String Value
  | .intLit n => (st, .ok (.intV n))
  | .strLit s => (st, .ok (.strV s))
  | .name x =>
    match envGet st.env x with
    | some v => (st, .ok v)
    | none =>
      match lookupBuiltin x with
      | some v => (st, .ok v)
      | none => (st, .error ("name '" ++ x ++ "' is not defined"))
  | .call f args =>
    match evalExpr st f with
    | (st1, .ok fv) =>
      match evalArgs st1 args with
      | (st2, .ok vs) =>
        match applyValue fv vs with
        | .ok (rv, extra) => (⟨st2.env, st2.out ++ extra⟩, .ok rv)
        | .error m => (st2, .error m)
      | (st2, .error m) => (st2, .error m)
    | (st1, .error m) => (st1, .error m)
/-- Left-to-right evaluation of an argument list, stopping at the first
fault. -/
def evalArgs (st : RunState) : ExprList → RunState × Except String (List Value)
  | .nil => (st, .ok [])
  | .cons e es =>
    match evalExpr st e with
    | (st1, .ok v) =>
      match evalArgs st1 es with
      | (st2, .ok vs) => (st2, .ok (v :: vs))
      | (st2, .error m) => (st2, .error m)
    | (st1, .error m) => (st1, .error m)
end

/-- Execution of one statement: assignment writes into `local_vars`,
expression statements discard the value. -/
def execStmt (st : RunState) : Stmt → RunState × Option String
  | .assign x e =>
    match evalExpr st e with
    | (st1, .ok v) => (⟨envSet st1.env x v, st1.out⟩, none)
    | (st1, .error m) => (st1, some m)
  | .exprStmt e =>
    match evalExpr st e with
    | (st1, .ok _) => (st1, none)
    | (st1, .error m) => (st1, some m)

/-- Running the statement list of the program: the embedded `exec` call.
The returned state is the state at normal termination or at the fault; the
second component is the `str` of the uncaught exception, if any. -/
def runProg (st : RunState) : List Stmt → RunState × Option String
  | [] => (st, none)
  | s :: rest =>
    match execStmt st s with
    | (st1, none) => runProg st1 rest
    | (st1, some m) => (st1, some m)

/-- A program as `execute_code` receives it: the raw request text (used by
the steps scan) together with its parsed statements (what `exec` runs).
Concrete programs below always pair a text with its actual parse. -/
structure PyProgram where
  code : String
  stmts : List Stmt

/-- The structured result of `/api/execute`.  The field `vars` embeds the
JSON key `variables` of the source (that identifier is a reserved command
name in Lean, so the source's name cannot be kept). -/
structure ExecResult where
  success : Bool
  output : List String
  error : Option String
  vars : List (String × String)
  steps : List StepEntry
  deriving DecidableEq

/-- The output shaping of the success path: `if output:` followed by
`output.strip().split(chr 10)`. -/
def shapeOutput (captured : String) : List String :=
  if captured = "" then [] else splitLines (pyStrip captured)

/-- The variables shaping of the success path: drop underscore-prefixed
keys, render the rest with `repr`. -/
def shapeVars (env : Env) : List (String × String) :=
  (env.filter (fun kv => !startsUnderscore kv.1)).map (fun kv => (kv.1, pyRepr kv.2))

/-- The whole `/api/execute` handler body: run the program; on normal
termination fill `steps`, `output` and `variables`; on a fault the
`except Exception` branch records `success=False` and the exception text,
leaving the three accumulating fields at their initial empty values. -/
def execute_code (p : PyProgram) : ExecResult :=
  match runProg initState p.stmts with
  | (st, none) =>
    ⟨true, shapeOutput st.out, none, shapeVars st.env, computeSteps p.code⟩
  | (_, some e) =>
    ⟨false, [], some e, [], []⟩

/-! ## Concrete programs used by the scenarios and counterexamples -/

/-- Scenario A of the spec: `x = 5` then `print(x)`. -/
def progA : PyProgram :=
  ⟨"x = 5\nprint(x)",
   [.assign "x" (.intLit 5),
    .exprStmt (.call (.name "print") (.cons (.name "x") .nil))]⟩

/-- A one-line program referencing an unresolved identifier. -/
def progFaultSteps : PyProgram :=
  ⟨"undefined_name", [.exprStmt (.name "undefined_name")]⟩

/-- A program that prints and then faults on an unresolved identifier. -/
def progPrintThenFault : PyProgram :=
  ⟨"print(1)\nno_such",
   [.exprStmt (.call (.name "print") (.cons (.intLit 1) .nil)),
    .exprStmt (.name "no_such")]⟩

/-- A program printing a string with leading whitespace. -/
def progLeadingWS : PyProgram :=
  ⟨"print(\"  hi\")",
   [.exprStmt (.call (.name "print") (.cons (.strLit "  hi") .nil))]⟩

/-- A program echoing the input prompt to the output. -/
def progInputEcho : PyProgram :=
  ⟨"print(input(\"hi\"))",
   [.exprStmt (.call (.name "print")
     (.cons (.call (.name "input") (.cons (.strLit "hi") .nil)) .nil))]⟩

/-- A program that creates a binding and then faults. -/
def progBindThenFault : PyProgram :=
  ⟨"y = 1\nboom", [.assign "y" (.intLit 1), .exprStmt (.name "boom")]⟩

/-- A successful program with one underscore-prefixed and one plain
binding. -/
def progUnderscore : PyProgram :=
  ⟨"_t = 7\ny = 2", [.assign "_t" (.intLit 7), .assign "y" (.intLit 2)]⟩

/-- A program faulting while evaluating an argument of `print`. -/
def progPrintFault : PyProgram :=
  ⟨"print(no)",
   [.exprStmt (.call (.name "print") (.cons (.name "no") .nil))]⟩

/-- A program that rebinds the name `round` to the `abs` capability and then
calls it. -/
def progRoundShadow : PyProgram :=
  ⟨"round = abs\nprint(round(-3))",
   [.assign "round" (.name "abs"),
    .exprStmt (.call (.name "print")
      (.cons (.call (.name "round") (.cons (.intLit (-3)) .nil)) .nil))]⟩

/-- A program calling `round` directly, as the palette's Round block
generates it. -/
def progRoundPlain : PyProgram :=
  ⟨"x = round(3)",
   [.assign "x" (.call (.name "round") (.cons (.intLit 3) .nil))]⟩

/-- The empty program. -/
def progEmpty : PyProgram := ⟨"", []⟩

/-- Modelled from the spec: the Output Stream is "assembled after the run by
splitting on line breaks and discarding a single trailing empty line".  This
follows the spec's words only, for comparison with the source's
`shapeOutput`. -/
def specShapeOutput (captured : String) : List String :=
  match (splitLines captured).getLast? with
  | some "" => (splitLines captured).dropLast
  | _ => splitLines captured

/-- Syntactic test for the callee the Round block generates. -/
def isRoundName : Expr → Bool
  | .name x => x = "round"
  | _ => false

mutual
/-- Does an expression contain a call whose callee is the bare name
`round`? -/
def callsRoundE : Expr → Bool
  | .intLit _ => false
  | .strLit _ => false
  | .name _ => false
  | .call f args => isRoundName f || callsRoundE f || callsRoundL args
/-- Lift of `callsRoundE` to argument lists. -/
def callsRoundL : ExprList → Bool
  | .nil => false
  | .cons e es => callsRoundE e || callsRoundL es
end

/-- Does a statement contain a call of the name `round`? -/
def callsRoundS : Stmt → Bool
  | .assign _ e => callsRoundE e
  | .exprStmt e => callsRoundE e

/-- Does the program call `round` anywhere? -/
def progCallsRound (p : PyProgram) : Bool := p.stmts.any callsRoundS

/-! ## Lemmas about the static steps scan -/

/-- Membership in the steps scan, with the running index made explicit:
an entry is produced exactly for the lines passing the non-blank,
non-comment filter, numbered by their physical position. -/
lemma mem_stepsAux (ls : List String) : ∀ (i : Nat) (e : StepEntry),
    e ∈ stepsAux i ls ↔
      ∃ j l, ls.get? j = some l ∧ e.line = i + j + 1 ∧ e.code = l ∧
        isStepLine l = true := by
  induction ls with
  | nil => intro i e; simp [stepsAux]
  | cons l ls ih =>
    intro i e
    constructor
    · intro h
      by_cases hl : isStepLine l
      · rw [stepsAux, if_pos hl] at h
        rcases List.mem_cons.mp h with h1 | h2
        · subst h1
          exact ⟨0, l, rfl, rfl, rfl, hl⟩
        · rcases (ih (i + 1) e).mp h2 with ⟨j, l', hg, hline, hcode, hstep⟩
          exact ⟨j + 1, l', hg, by omega, hcode, hstep⟩
      · rw [stepsAux, if_neg hl] at h
        rcases (ih (i + 1) e).mp h with ⟨j, l', hg, hline, hcode, hstep⟩
        exact ⟨j + 1, l', hg, by omega, hcode, hstep⟩
    · rintro ⟨j, l', hg, hline, hcode, hstep⟩
      cases j with
      | zero =>
        have hl' : l = l' := by simpa using hg
        subst hl'
        obtain ⟨el, ec⟩ := e
        have hel : el = i + 1 := by simpa using hline
        have hec : ec = l := hcode
        subst hel; subst hec
        rw [stepsAux, if_pos hstep]
        exact List.mem_cons_self _ _
      | succ j =>
        have hg' : ls.get? j = some l' := hg
        by_cases hl : isStepLine l
        · rw [stepsAux, if_pos hl]
          exact List.mem_cons.mpr (Or.inr
            ((ih (i + 1) e).mpr ⟨j, l', hg', by omega, hcode, hstep⟩))
        · rw [stepsAux, if_neg hl]
          exact (ih (i + 1) e).mpr ⟨j, l', hg', by omega, hcode, hstep⟩

/-- Every entry the scan produces from index `i` onwards has a line number
strictly above `i`. -/
lemma stepsAux_line_pos (ls : List String) (i : Nat) (e : StepEntry)
    (h : e ∈ stepsAux i ls) : i < e.line := by
  rcases (mem_stepsAux ls i e).mp h with ⟨j, l, _, hline, _, _⟩
  omega

/-- The line numbers of the steps scan are strictly increasing. -/
lemma stepsAux_sorted (ls : List String) :
    ∀ i, ((stepsAux i ls).map StepEntry.line).Sorted (· < ·) := by
  induction ls with
  | nil => intro i; simp [stepsAux]
  | cons l ls ih =>
    intro i
    by_cases hl : isStepLine l
    · rw [stepsAux, if_pos hl, List.map_cons]
      refine List.sorted_cons.mpr ⟨?_, ih (i + 1)⟩
      intro b hb
      rcases List.mem_map.mp hb with ⟨e, he, rfl⟩
      exact stepsAux_line_pos ls (i + 1) e he
    · rw [stepsAux, if_neg hl]
      exact ih (i + 1)

/-- The `round` key is absent from the restricted builtins mapping. -/
lemma lookupBuiltin_round : lookupBuiltin "round" = Option.none := rfl

/-! ## Claim theorems -/

/-- C1 (amended): the `steps` field is the static scan of the physical
lines — one entry per non-blank, non-comment line, 1-based, raw text, in
physical order — only when the run succeeds; when the run faults, the scan
(placed after `exec` inside the `try` block) never executes and `steps` is
empty. -/
theorem steps_static_scan (p : PyProgram) :
    ((execute_code p).success = true → (execute_code p).steps = computeSteps p.code) ∧
    ((execute_code p).success = false → (execute_code p).steps = []) ∧
    (∀ e : StepEntry, e ∈ computeSteps p.code ↔
      ∃ j l, (splitLines p.code).get? j = some l ∧ e.line = j + 1 ∧ e.code = l ∧
        isStepLine l = true) ∧
    ((computeSteps p.code).map StepEntry.line).Sorted (· < ·) := by
  refine ⟨?_, ?_, ?_, stepsAux_sorted _ 0⟩
  · intro h
    rcases hr : runProg initState p.stmts with ⟨st, err⟩
    cases err with
    | none => simp [execute_code, hr]
    | some e => simp [execute_code, hr] at h
  · intro h
    rcases hr : runProg initState p.stmts with ⟨st, err⟩
    cases err with
    | none => simp [execute_code, hr] at h
    | some e => simp [execute_code, hr]
  · intro e
    simpa [computeSteps] using mem_stepsAux (splitLines p.code) 0 e

/-- Witness for `steps_static_scan` at Scenario A's program. -/
theorem steps_static_scan_witness :
    (execute_code progA).steps = computeSteps progA.code :=
  (steps_static_scan progA).1 rfl

/-- C1 counterexample: the one-line program `undefined_name` faults, its
single line passes the non-blank, non-comment filter, yet the returned
`steps` list is empty — the scan is not performed on failed runs. -/
theorem steps_skipped_on_fault :
    (execute_code progFaultSteps).success = false ∧
    (execute_code progFaultSteps).steps = [] ∧
    splitLines progFaultSteps.code = ["undefined_name"] ∧
    isStepLine "undefined_name" = true :=
  ⟨rfl, rfl, rfl, rfl⟩

/-- C2 (amended): when a run faults, the result's `output` and `variables`
are empty even though output may already have been written to the capture
buffer and bindings created — the `except` branch never copies them. -/
theorem fault_discards_pending_output (p : PyProgram) (st : RunState) (e : String)
    (h : runProg initState p.stmts = (st, some e)) :
    (execute_code p).output = [] ∧ (execute_code p).vars = [] := by
  simp [execute_code, h]

/-- Witness for `fault_discards_pending_output`. -/
theorem fault_discards_pending_output_witness :
    (execute_code progPrintThenFault).output = [] ∧
    (execute_code progPrintThenFault).vars = [] :=
  fault_discards_pending_output progPrintThenFault ⟨[], "1\n"⟩
    "name 'no_such' is not defined" rfl

/-- C2 counterexample: `print(1)` followed by an unresolved name writes
`1` and a newline to the capture buffer before the fault, yet the returned
`output` is empty. -/
theorem pending_output_lost :
    (runProg initState progPrintThenFault.stmts).1.out = "1\n" ∧
    (execute_code progPrintThenFault).success = false ∧
    (execute_code progPrintThenFault).output = [] :=
  ⟨rfl, rfl, rfl⟩

/-- C4: the evaluator always produces a complete result record; `error` is
`none` exactly when `success` is true, and on failure `error` carries the
fault's message exactly as the run produced it. -/
theorem result_always_complete (p : PyProgram) :
    ((execute_code p).success = true ↔ (execute_code p).error = Option.none) ∧
    (execute_code p).error = (runProg initState p.stmts).2 := by
  rcases hr : runProg initState p.stmts with ⟨st, err⟩
  cases err <;> simp [execute_code, hr]

/-- Witness for `result_always_complete` at Scenario A's program. -/
theorem result_always_complete_witness :
    (execute_code progA).error = (runProg initState progA.stmts).2 :=
  (result_always_complete progA).2

/-- C5 (amended): on a successful run the output list is empty when the
captured text is empty, and otherwise is the captured text stripped of all
leading and trailing whitespace and then split on newlines — so leading
whitespace, trailing whitespace and trailing blank lines are discarded, not
preserved verbatim. -/
theorem output_shaping (p : PyProgram) (st : RunState)
    (h : runProg initState p.stmts = (st, Option.none)) :
    (execute_code p).output = shapeOutput st.out ∧
    (st.out = "" → (execute_code p).output = []) := by
  constructor
  · simp [execute_code, h]
  · intro h0
    simp [execute_code, h, shapeOutput, h0]

/-- Witness for `output_shaping`: the empty program produces `[]`, not a
list holding one empty string. -/
theorem output_shaping_witness : (execute_code progEmpty).output = [] :=
  (output_shaping progEmpty initState rfl).2 rfl

/-- C5 counterexample: printing a string with leading spaces captures the
text `  hi` plus a newline; the spec's split-and-drop-one-trailing-line
shaping would return the line verbatim, but the code's `strip()` also
removes the leading spaces. -/
theorem output_not_verbatim :
    (runProg initState progLeadingWS.stmts).1.out = "  hi\n" ∧
    (execute_code progLeadingWS).output = ["hi"] ∧
    specShapeOutput "  hi\n" = ["  hi"] ∧
    (execute_code progLeadingWS).output ≠ specShapeOutput "  hi\n" :=
  ⟨rfl, rfl, rfl, by decide⟩

/-- C6: the `input` capability is a pure function — with an argument it
returns that argument unchanged, with no argument it returns the empty
string — and a program printing `input("hi")` outputs `hi`. -/
theorem input_primitive_echoes :
    (∀ v : Value, applyBuiltin "input" [v] = .ok (v, "")) ∧
    applyBuiltin "input" [] = .ok (.strV "", "") ∧
    (execute_code progInputEcho).success = true ∧
    (execute_code progInputEcho).output = ["hi"] :=
  ⟨fun _ => rfl, rfl, rfl, rfl⟩

/-- Witness for `input_primitive_echoes` at a concrete prompt. -/
theorem input_primitive_echoes_witness :
    applyBuiltin "input" [Value.strV "abc"] = .ok (.strV "abc", "") :=
  input_primitive_echoes.1 (Value.strV "abc")

/-- C7: Scenario A — the two-line program `x = 5` / `print(x)` yields
success, output `5`, variables mapping `x` to `5`, and the two steps with
their raw text. -/
theorem scenario_a_exact :
    execute_code progA =
      ⟨true, ["5"], Option.none, [("x", "5")],
       [⟨1, "x = 5"⟩, ⟨2, "print(x)"⟩]⟩ := rfl

/-- C8 (amended): no key of the returned variables mapping starts with an
underscore, on any run; on success the mapping is exactly the
underscore-filtered, repr-rendered snapshot of the final locals; on failure
it is empty (pre-fault bindings are dropped). -/
theorem vars_underscore_filter (p : PyProgram) :
    (∀ kv ∈ (execute_code p).vars, startsUnderscore kv.1 = false) ∧
    ((execute_code p).success = true →
      (execute_code p).vars = shapeVars (runProg initState p.stmts).1.env) ∧
    ((execute_code p).success = false → (execute_code p).vars = []) := by
  rcases hr : runProg initState p.stmts with ⟨st, err⟩
  cases err with
  | none =>
    refine ⟨?_, ?_, ?_⟩
    · intro kv hkv
      have hv : (execute_code p).vars = shapeVars st.env := by
        simp [execute_code, hr]
      rw [hv] at hkv
      unfold shapeVars at hkv
      rcases List.mem_map.mp hkv with ⟨kv0, hmem, rfl⟩
      have hf := (List.mem_filter.mp hmem).2
      simpa using hf
    · intro _
      simp [execute_code, hr]
    · intro hfail
      simp [execute_code, hr] at hfail
  | some e =>
    refine ⟨?_, ?_, ?_⟩
    · intro kv hkv
      simp [execute_code, hr] at hkv
    · intro hs
      simp [execute_code, hr] at hs
    · intro _
      simp [execute_code, hr]

/-- Witness for `vars_underscore_filter`: the run `_t = 7` / `y = 2`
keeps only the non-underscore binding in the snapshot. -/
theorem vars_underscore_filter_witness :
    (execute_code progUnderscore).vars =
      shapeVars (runProg initState progUnderscore.stmts).1.env :=
  (vars_underscore_filter progUnderscore).2.1 rfl

/-- C8 counterexample: the run `y = 1` then an unresolved name has the
binding `y` in the locals at the fault, yet the returned variables mapping
is empty — non-underscore bindings of failed runs do not appear. -/
theorem bindings_dropped_on_fault :
    (runProg initState progBindThenFault.stmts).1.env = [("y", Value.intV 1)] ∧
    (execute_code progBindThenFault).success = false ∧
    (execute_code progBindThenFault).vars = [] :=
  ⟨rfl, rfl, rfl⟩

/-- C9: whenever the run faults, the result is exactly `success=false`,
the fault's message as `error`, and empty `output`, `variables` and
`steps` — all three accumulating fields are only populated after a clean
run. -/
theorem fault_result_shape (p : PyProgram) (st : RunState) (e : String)
    (h : runProg initState p.stmts = (st, some e)) :
    execute_code p = ⟨false, [], some e, [], []⟩ := by
  simp [execute_code, h]

/-- Witness for `fault_result_shape` at a program faulting inside a print
argument. -/
theorem fault_result_shape_witness :
    execute_code progPrintFault =
      ⟨false, [], some "name 'no' is not defined", [], []⟩ :=
  fault_result_shape progPrintFault initState "name 'no' is not defined" rfl

/-- C10 (amended): `round` is absent from the capability mapping, so a call
of the bare name `round` faults with the NameError text whenever the
program has not bound `round` itself; in particular the palette-shaped
one-liner `x = round(3)` fails that way. -/
theorem round_not_capability :
    lookupBuiltin "round" = Option.none ∧
    (∀ (st : RunState) (args : ExprList), envGet st.env "round" = Option.none →
      evalExpr st (.call (.name "round") args) =
        (st, .error "name 'round' is not defined")) ∧
    execute_code progRoundPlain =
      ⟨false, [], some "name 'round' is not defined", [], []⟩ := by
  refine ⟨rfl, ?_, rfl⟩
  intro st args h
  simp [evalExpr, h, lookupBuiltin_round]

/-- Witness for `round_not_capability` in the empty environment. -/
theorem round_not_capability_witness :
    evalExpr initState (.call (.name "round") (.cons (.intLit 3) .nil)) =
      (initState, .error "name 'round' is not defined") :=
  round_not_capability.2.1 initState (.cons (.intLit 3) .nil) rfl

/-- C10 counterexample: a program may first rebind the name `round`
(`round = abs`) and then call it — the call of `round` succeeds, so not
every round-calling program terminates with a name-resolution failure. -/
theorem round_shadowing_run_succeeds :
    progCallsRound progRoundShadow = true ∧
    execute_code progRoundShadow =
      ⟨true, ["3"], Option.none, [("round", "<built-in function abs>")],
       [⟨1, "round = abs"⟩, ⟨2, "print(round(-3))"⟩]⟩ :=
  ⟨rfl, rfl⟩

end TeachCoding
